import Mathlib

/-!
Verification of the juno_vaults listing/bucket escrow and matching engine.

The dispatcher, receive adapters, instantiate and query entry points are
embedded from `src/contract.rs`.  The executor bodies (`execute.rs`), state
types (`state.rs`), message types (`msg.rs`) and query bodies (`query.rs`)
are not part of the provided sources; those definitions are modelled from
the specification, as marked in their doc comments.
-/

namespace JunoVaults

/-- Addresses are plain strings; the adapter layer validates them. -/
abbrev Addr := String

/-- Modelled from the spec (§3 Asset Balance, `state.rs` is missing):
a tagged representation of value — native coin amount, fungible cw20
amount identified by the issuing contract, or a single non-fungible item
identified by (contract, token id). -/
inductive Asset where
  | native (denom : String) (amount : Nat)
  | cw20 (issuer : Addr) (amount : Nat)
  | nft (issuer : Addr) (tokenId : String)
deriving DecidableEq, Repr

/-- A key identifying one kind of value, used to measure conservation
per denomination / issuer / item. -/
inductive AssetKey where
  | native (denom : String)
  | cw20 (issuer : Addr)
  | nft (issuer : Addr) (tokenId : String)
deriving DecidableEq, Repr

/-- Quantity of value of kind `k` carried by an asset balance.  A
non-fungible item counts as quantity 1 of its own key. -/
def Asset.qty : Asset → AssetKey → Nat
  | .native d a, .native d' => if d = d' then a else 0
  | .cw20 i a, .cw20 i' => if i = i' then a else 0
  | .nft i t, .nft i' t' => if i = i' ∧ t = t' then 1 else 0
  | _, _ => 0

/-- Modelled from the spec (§4.1): `is_zero` detects a drained balance;
a non-fungible item is never zero. -/
def Asset.isZero : Asset → Bool
  | .native _ a => a == 0
  | .cw20 _ a => a == 0
  | .nft _ _ => false

/-- The contract's error type.  Modelled from the spec (§7 error
taxonomy, `error.rs` is missing).  `IdTaken` stands for the rejection of
a duplicate caller-chosen listing identifier, which the spec leaves
unnamed; `InvalidAddr` stands for the address-validation failure that the
adapter surfaces from `addr_validate`. -/
inductive ContractError where
  | ListingNotFound
  | NotPurchasable
  | NotWhitelisted
  | BucketNotFound
  | Unauthorized
  | InsufficientFunds
  | NotExpired
  | NotFinalized
  | NotPurchased
  | NotOpen
  | AlreadyFinalized
  | AssetMismatch
  | DuplicateNft
  | NftAlreadyListed
  | NftAlreadyHeld
  | EmptyBalance
  | BucketExists
  | NotFound
  | IdTaken
  | InvalidAddr
deriving DecidableEq, Repr

/-- Modelled from the spec (§4.1): `add(a, b)` fails `AssetMismatch` on a
kind or denomination/issuer disagreement and `DuplicateNft` when both
sides already denote a present non-fungible item. -/
def Asset.add : Asset → Asset → Except ContractError Asset
  | .native d a, .native d' a' =>
      if d = d' then .ok (.native d (a + a')) else .error .AssetMismatch
  | .cw20 i a, .cw20 i' a' =>
      if i = i' then .ok (.cw20 i (a + a')) else .error .AssetMismatch
  | .nft _ _, .nft _ _ => .error .DuplicateNft
  | _, _ => .error .AssetMismatch

/-- Modelled from the spec (§4.1): `meets_or_exceeds(have, want)` — same
kind and denomination/issuer with quantity(have) ≥ quantity(want); for a
non-fungible item, exact identifier match. -/
def Asset.meetsOrExceeds : Asset → Asset → Bool
  | .native d a, .native d' a' => d == d' && a' ≤ a
  | .cw20 i a, .cw20 i' a' => i == i' && a' ≤ a
  | .nft i t, .nft i' t' => i == i' && t == t'
  | _, _ => false

/-- Listing status.  Modelled from the spec (§3): Open, Finalized (with
its absolute deadline), or Closed. -/
inductive LStatus where
  | open_
  | finalized (deadline : Nat)
  | closed
deriving DecidableEq, Repr

/-- Modelled from the spec (§3 Listing, `state.rs` is missing). -/
structure Listing where
  seller : Addr
  saleAsset : Asset
  ask : Asset
  whitelistedBuyer : Option Addr
  status : LStatus
deriving DecidableEq, Repr

/-- Bucket status.  Modelled from the spec (§3): Open or Consumed. -/
inductive BStatus where
  | open_
  | consumed
deriving DecidableEq, Repr

/-- Modelled from the spec (§3 Bucket, `state.rs` is missing); the owner
and the owner-chosen identifier form the ledger key. -/
structure Bucket where
  funds : Asset
  status : BStatus
deriving DecidableEq, Repr

/-- The config singleton holding the admin address (`state.rs`). -/
structure Config where
  admin : Addr
deriving DecidableEq, Repr

/-- NFT reference built by the cw721 receive adapter (`state.rs` `Nft`). -/
structure Nft where
  contract_address : Addr
  token_id : String
deriving DecidableEq, Repr

/-- First-match association-list lookup. -/
def lookupA {α β : Type} [DecidableEq α] : List (α × β) → α → Option β
  | [], _ => none
  | p :: rest, k => if p.1 = k then some p.2 else lookupA rest k

/-- Remove the first entry with the given key. -/
def removeFirstA {α β : Type} [DecidableEq α] : List (α × β) → α → List (α × β)
  | [], _ => []
  | p :: rest, k => if p.1 = k then rest else p :: removeFirstA rest k

/-- Replace the value of the first entry with the given key. -/
def setFirstA {α β : Type} [DecidableEq α] : List (α × β) → α → β → List (α × β)
  | [], _, _ => []
  | p :: rest, k, v => if p.1 = k then (k, v) :: rest else p :: setFirstA rest k v

/-- Sum of a valuation over all entries of an association list. -/
def keyedVal {α β : Type} (f : β → AssetKey → Nat) : List (α × β) → AssetKey → Nat
  | [], _ => 0
  | p :: rest, k => f p.2 k + keyedVal f rest k

/-- The contract state: the listing ledger, the bucket ledger and the
config singleton.  Modelled from the spec (§3, `state.rs` is missing). -/
structure State where
  listings : List (Nat × Listing)
  buckets : List ((Addr × String) × Bucket)
  config : Config
deriving DecidableEq, Repr

/-- The empty post-instantiation state. -/
def initState (admin : Addr) : State :=
  { listings := [], buckets := [], config := { admin := admin } }

/-- Result of an execute entry point: the new state plus the list of
asset-transfer effects (recipient, asset) released to external
addresses. -/
abbrev ExecResult := Except ContractError (State × List (Addr × Asset))

/-- A listing identifier not yet present in the ledger, used when the
creation message supplies none. -/
def freshListingId (s : State) : Nat :=
  s.listings.foldr (fun p m => max (p.1 + 1) m) 0

/-- Modelled from the spec (§4.2 create_listing, `msg.rs` is missing):
the creation message carries the ask, the optional whitelisted buyer and
the optional caller-chosen identifier. -/
structure CreateListingMsg where
  ask : Asset
  whitelistedBuyer : Option Addr
  listingId : Option Nat
deriving DecidableEq, Repr

/-- The stored listing record built by the creation rule. -/
def newListing (seller : Addr) (deposit : Asset) (cm : CreateListingMsg) : Listing :=
  { seller := seller
    saleAsset := deposit
    ask := cm.ask
    whitelistedBuyer := cm.whitelistedBuyer
    status := .open_ }

/-- Modelled from the spec (§4.2 create_listing, `execute.rs` is
missing): rejects a zero/empty deposit (`EmptyBalance`), allocates a new
identifier when the message supplies none, rejects a duplicate
identifier, stores the listing with status Open. -/
def execute_create_listing (s : State) (seller : Addr) (deposit : Asset)
    (cm : CreateListingMsg) : ExecResult :=
  if deposit.isZero then .error .EmptyBalance
  else
    match lookupA s.listings (cm.listingId.getD (freshListingId s)) with
    | some _ => .error .IdTaken
    | none =>
        .ok ({ s with listings :=
                 (cm.listingId.getD (freshListingId s), newListing seller deposit cm)
                   :: s.listings }, [])

/-- Modelled from the spec (§4.2 add_funds_to_sale, `execute.rs` is
missing): seller-only top-up of an Open listing; a non-fungible listing
rejects any top-up with `NftAlreadyListed`; otherwise the deposit is
added to the escrowed balance, failing `AssetMismatch` on a kind
disagreement. -/
def execute_add_funds_to_sale (s : State) (balance : Asset) (depositor : Addr)
    (listingId : Nat) : ExecResult :=
  match lookupA s.listings listingId with
  | none => .error .ListingNotFound
  | some l =>
      if depositor ≠ l.seller then .error .Unauthorized
      else if l.status ≠ .open_ then .error .NotOpen
      else match l.saleAsset with
        | .nft _ _ => .error .NftAlreadyListed
        | _ =>
            match l.saleAsset.add balance with
            | .error e => .error e
            | .ok newAsset =>
                .ok ({ s with listings :=
                        setFirstA s.listings listingId ({ l with saleAsset := newAsset }) }, [])

/-- Modelled from the spec (§4.2 change_ask, `execute.rs` is missing):
seller-only, Open-only replacement of the ask. -/
def execute_change_ask (s : State) (caller : Addr) (listingId : Nat)
    (newAsk : Asset) : ExecResult :=
  match lookupA s.listings listingId with
  | none => .error .ListingNotFound
  | some l =>
      if caller ≠ l.seller then .error .Unauthorized
      else if l.status ≠ .open_ then .error .NotOpen
      else .ok ({ s with listings :=
                   setFirstA s.listings listingId ({ l with ask := newAsk }) }, [])

/-- Modelled from the spec (§4.2 set_whitelisted_buyer, `execute.rs` is
missing): seller-only; `none` clears the restriction. -/
def execute_modify_whitelisted_buyer (s : State) (caller : Addr) (listingId : Nat)
    (newAddr : Option Addr) : ExecResult :=
  match lookupA s.listings listingId with
  | none => .error .ListingNotFound
  | some l =>
      if caller ≠ l.seller then .error .Unauthorized
      else .ok ({ s with listings :=
                   setFirstA s.listings listingId ({ l with whitelistedBuyer := newAddr }) }, [])

/-- Modelled from the spec (§4.2 remove_listing, `execute.rs` is
missing): seller-only, Open-only; returns the escrowed asset to the
seller and deletes the record. -/
def execute_remove_listing (s : State) (caller : Addr) (listingId : Nat) : ExecResult :=
  match lookupA s.listings listingId with
  | none => .error .ListingNotFound
  | some l =>
      if caller ≠ l.seller then .error .Unauthorized
      else if l.status ≠ .open_ then .error .NotOpen
      else .ok ({ s with listings := removeFirstA s.listings listingId },
                [(l.seller, l.saleAsset)])

/-- Modelled from the spec (§4.2 finalize, `execute.rs` is missing):
seller-only; transitions Open→Finalized with deadline = now + seconds;
fails `AlreadyFinalized` when the listing is not Open. -/
def execute_finalize (s : State) (now : Nat) (caller : Addr) (listingId : Nat)
    (seconds : Nat) : ExecResult :=
  match lookupA s.listings listingId with
  | none => .error .ListingNotFound
  | some l =>
      if caller ≠ l.seller then .error .Unauthorized
      else if l.status ≠ .open_ then .error .AlreadyFinalized
      else
        .ok ({ s with listings := setFirstA s.listings listingId ({ l with status := .finalized (now + seconds) }) }, [])

/-- Modelled from the spec (§4.2 refund_expired, `execute.rs` is
missing): seller-only; requires status Finalized (`NotFinalized`) with
now ≥ deadline (`NotExpired`); returns the escrowed asset to the seller
and deletes the record. -/
def execute_refund (s : State) (now : Nat) (caller : Addr) (listingId : Nat) : ExecResult :=
  match lookupA s.listings listingId with
  | none => .error .ListingNotFound
  | some l =>
      if caller ≠ l.seller then .error .Unauthorized
      else match l.status with
        | .finalized deadline =>
            if now < deadline then .error .NotExpired
            else .ok ({ s with listings := removeFirstA s.listings listingId },
                      [(l.seller, l.saleAsset)])
        | _ => .error .NotFinalized

/-- Modelled from the spec (§4.3 create_bucket, `execute.rs` is
missing): fails `BucketExists` when (owner, id) is already present and
`EmptyBalance` on a zero/empty deposit. -/
def execute_create_bucket (s : State) (deposit : Asset) (owner : Addr)
    (bucketId : String) : ExecResult :=
  match lookupA s.buckets (owner, bucketId) with
  | some _ => .error .BucketExists
  | none =>
      if deposit.isZero then .error .EmptyBalance
      else .ok ({ s with buckets :=
                   ((owner, bucketId), { funds := deposit, status := .open_ }) :: s.buckets }, [])

/-- Modelled from the spec (§4.3 add_to_bucket, `execute.rs` is
missing): fails `NotFound` when absent, `NotOpen` when not Open; a
non-fungible bucket rejects top-ups with `NftAlreadyHeld`; otherwise the
deposit is added, failing `AssetMismatch` on a kind disagreement. -/
def execute_add_to_bucket (s : State) (balance : Asset) (owner : Addr)
    (bucketId : String) : ExecResult :=
  match lookupA s.buckets (owner, bucketId) with
  | none => .error .NotFound
  | some b =>
      if b.status ≠ .open_ then .error .NotOpen
      else match b.funds with
        | .nft _ _ => .error .NftAlreadyHeld
        | _ =>
            match b.funds.add balance with
            | .error e => .error e
            | .ok newFunds =>
                .ok ({ s with buckets := setFirstA s.buckets (owner, bucketId) ({ b with funds := newFunds }) }, [])

/-- Modelled from the spec (§4.3 remove_bucket, `execute.rs` is
missing): Open-only; returns the full escrow to the owner and deletes
the record. -/
def execute_withdraw_bucket (s : State) (owner : Addr) (bucketId : String) : ExecResult :=
  match lookupA s.buckets (owner, bucketId) with
  | none => .error .NotFound
  | some b =>
      if b.status ≠ .open_ then .error .NotOpen
      else .ok ({ s with buckets := removeFirstA s.buckets (owner, bucketId) },
                [(owner, b.funds)])

/-- Whether a listing can be purchased at time `now`: Open, or Finalized
with the deadline strictly in the future; Closed never. -/
def purchasableAt (l : Listing) (now : Nat) : Bool :=
  match l.status with
  | .open_ => true
  | .finalized deadline => now < deadline
  | .closed => false

/-- Whether the whitelist check passes for `buyer`: no whitelist, or the
whitelisted address equals the buyer. -/
def whitelistOk (l : Listing) (buyer : Addr) : Bool :=
  match l.whitelistedBuyer with
  | some w => w == buyer
  | none => true

/-- Modelled from the spec (§4.4 buy_listing, `execute.rs` is missing).
Preconditions in order, first failure wins: listing exists
(`ListingNotFound`); status purchasable (`NotPurchasable` if Closed or
if Finalized with now ≥ deadline); whitelist, if set, equals the buyer
(`NotWhitelisted`); the bucket (buyer, bucket_id) exists
(`BucketNotFound`) and is Open (`Unauthorized`); the bucket balance
meets or exceeds the ask (`InsufficientFunds`).  On success the whole
bucket balance is released to the seller, the bucket becomes Consumed
holding the listing's sale asset, and the listing record is deleted. -/
def execute_buy_listing (s : State) (now : Nat) (buyer : Addr) (listingId : Nat)
    (bucketId : String) : ExecResult :=
  match lookupA s.listings listingId with
  | none => .error .ListingNotFound
  | some l =>
      if ¬purchasableAt l now then .error .NotPurchasable
      else if ¬whitelistOk l buyer then .error .NotWhitelisted
      else match lookupA s.buckets (buyer, bucketId) with
        | none => .error .BucketNotFound
        | some b =>
            if b.status ≠ .open_ then .error .Unauthorized
            else if ¬b.funds.meetsOrExceeds l.ask then .error .InsufficientFunds
            else .ok ({ s with
                         listings := removeFirstA s.listings listingId,
                         buckets := setFirstA s.buckets (buyer, bucketId)
                           { funds := l.saleAsset, status := .consumed } },
                      [(l.seller, b.funds)])

/-- Modelled from the spec (§4.3 withdraw_purchased, `execute.rs` is
missing): Consumed-only; releases the recorded purchased asset to the
owner and deletes the record; fails `NotPurchased` when the status is
not Consumed. -/
def execute_withdraw_purchased (s : State) (owner : Addr) (bucketId : String) : ExecResult :=
  match lookupA s.buckets (owner, bucketId) with
  | none => .error .NotFound
  | some b =>
      if b.status ≠ .consumed then .error .NotPurchased
      else .ok ({ s with buckets := removeFirstA s.buckets (owner, bucketId) },
                [(owner, b.funds)])

/-- The execute operations of the engine, mirroring the `ExecuteMsg`
variants dispatched in `contract.rs` (the message payloads are modelled
from the spec, `msg.rs` is missing). -/
inductive Op where
  | createListing (seller : Addr) (deposit : Asset) (cm : CreateListingMsg)
  | addFundsToSale (depositor : Addr) (balance : Asset) (listingId : Nat)
  | changeAsk (caller : Addr) (listingId : Nat) (newAsk : Asset)
  | modifyWhitelistedBuyer (caller : Addr) (listingId : Nat) (newAddr : Option Addr)
  | removeListing (caller : Addr) (listingId : Nat)
  | finalize (caller : Addr) (listingId : Nat) (seconds : Nat)
  | refundExpired (caller : Addr) (listingId : Nat)
  | createBucket (owner : Addr) (deposit : Asset) (bucketId : String)
  | addToBucket (owner : Addr) (balance : Asset) (bucketId : String)
  | removeBucket (owner : Addr) (bucketId : String)
  | buyListing (buyer : Addr) (listingId : Nat) (bucketId : String)
  | withdrawPurchased (caller : Addr) (bucketId : String)
deriving DecidableEq, Repr

/-- The execute dispatcher of `contract.rs`, routing each operation to
its executor with the caller-supplied current time `now` (the `env`
block time). -/
def step (s : State) (now : Nat) : Op → ExecResult
  | .createListing seller deposit cm => execute_create_listing s seller deposit cm
  | .addFundsToSale depositor balance listingId =>
      execute_add_funds_to_sale s balance depositor listingId
  | .changeAsk caller listingId newAsk => execute_change_ask s caller listingId newAsk
  | .modifyWhitelistedBuyer caller listingId newAddr =>
      execute_modify_whitelisted_buyer s caller listingId newAddr
  | .removeListing caller listingId => execute_remove_listing s caller listingId
  | .finalize caller listingId seconds => execute_finalize s now caller listingId seconds
  | .refundExpired caller listingId => execute_refund s now caller listingId
  | .createBucket owner deposit bucketId => execute_create_bucket s deposit owner bucketId
  | .addToBucket owner balance bucketId => execute_add_to_bucket s balance owner bucketId
  | .removeBucket owner bucketId => execute_withdraw_bucket s owner bucketId
  | .buyListing buyer listingId bucketId =>
      execute_buy_listing s now buyer listingId bucketId
  | .withdrawPurchased caller bucketId => execute_withdraw_purchased s caller bucketId

/-- The assets an operation deposits into escrow when it succeeds (the
funds attached to the call; a failed call leaves them with the caller). -/
def depositsOf : Op → List Asset
  | .createListing _ deposit _ => [deposit]
  | .addFundsToSale _ balance _ => [balance]
  | .createBucket _ deposit _ => [deposit]
  | .addToBucket _ balance _ => [balance]
  | _ => []

/-- Sum of the quantities of kind `k` over a list of assets. -/
def sumAssets : List Asset → AssetKey → Nat
  | [], _ => 0
  | a :: rest, k => a.qty k + sumAssets rest k

/-- Sum of the quantities of kind `k` released by a list of transfer
effects. -/
def relVal : List (Addr × Asset) → AssetKey → Nat
  | [], _ => 0
  | p :: rest, k => p.2.qty k + relVal rest k

/-- Total value of kind `k` held in escrow by the two ledgers. -/
def heldVal (s : State) (k : AssetKey) : Nat :=
  keyedVal (fun l => l.saleAsset.qty) s.listings k
    + keyedVal (fun b => b.funds.qty) s.buckets k

/-- Run a sequence of timed operations, accumulating the deposits taken
in by successful operations and the transfer effects they release; a
failed operation leaves everything unchanged. -/
def runAcc : State → List Asset → List (Addr × Asset) → List (Nat × Op) →
    State × List Asset × List (Addr × Asset)
  | s, dep, rel, [] => (s, dep, rel)
  | s, dep, rel, (now, op) :: rest =>
      match step s now op with
      | .ok (s2, eff) => runAcc s2 (dep ++ depositsOf op) (rel ++ eff) rest
      | .error _ => runAcc s dep rel rest

/-- Modelled from the spec (§1, out-of-scope collaborators):
address-string validation is an external adapter concern; modelled as
rejecting the empty string and accepting any other string unchanged. -/
def addrValidate (a : String) : Option Addr :=
  if a = "" then none else some a

/-- The inner cw20-receive messages dispatched by `execute_receive` in
`contract.rs` (payload types modelled from the spec, `msg.rs` is
missing). -/
inductive ReceiveMsg where
  | createListingCw20 (create_msg : CreateListingMsg)
  | addFundsToSaleCw20 (listing_id : Nat)
  | createBucketCw20 (bucket_id : String)
  | addToBucketCw20 (bucket_id : String)
deriving DecidableEq, Repr

/-- The cw20 receive wrapper: the original sender, the token amount, and
the decoded inner message (binary decoding is an out-of-scope adapter). -/
structure Cw20ReceiveMsg where
  sender : String
  amount : Nat
  msg : ReceiveMsg
deriving DecidableEq, Repr

/-- The inner cw721-receive messages dispatched by `execute_receive_nft`
in `contract.rs`. -/
inductive ReceiveNftMsg where
  | createListingCw721 (create_msg : CreateListingMsg)
  | addToListingCw721 (listing_id : Nat)
  | createBucketCw721 (bucket_id : String)
  | addToBucketCw721 (bucket_id : String)
deriving DecidableEq, Repr

/-- The cw721 receive wrapper: the original sender, the token id, and
the decoded inner message. -/
structure Cw721ReceiveMsg where
  sender : String
  token_id : String
  msg : ReceiveNftMsg
deriving DecidableEq, Repr

/-- Modelled from the spec (§4.2: separate per-asset-kind entry points
converge on one creation rule; `execute.rs` is missing).  The cw20
creation entry point also receives the token contract address, which is
already recorded inside the balance. -/
def execute_create_listing_cw20 (s : State) (userWallet : Addr) (_tokenAddr : Addr)
    (balance : Asset) (cm : CreateListingMsg) : ExecResult :=
  execute_create_listing s userWallet balance cm

/-- Modelled from the spec (§4.2, converging creation entry points). -/
def execute_create_listing_cw721 (s : State) (userWallet : Addr) (nft : Nft)
    (cm : CreateListingMsg) : ExecResult :=
  execute_create_listing s userWallet (Asset.nft nft.contract_address nft.token_id) cm

/-- Modelled from the spec (§4.2; an incoming item is offered to
add_funds_to_sale, which rejects it for non-fungible listings). -/
def execute_add_to_sale_cw721 (s : State) (userWallet : Addr) (nft : Nft)
    (listingId : Nat) : ExecResult :=
  execute_add_funds_to_sale s (Asset.nft nft.contract_address nft.token_id)
    userWallet listingId

/-- Modelled from the spec (§4.3, converging creation entry points). -/
def execute_create_bucket_cw721 (s : State) (userWallet : Addr) (nft : Nft)
    (bucketId : String) : ExecResult :=
  execute_create_bucket s (Asset.nft nft.contract_address nft.token_id) userWallet bucketId

/-- Modelled from the spec (§4.3; an incoming item is offered to
add_to_bucket, which rejects it for non-fungible buckets). -/
def execute_add_to_bucket_cw721 (s : State) (userWallet : Addr) (nft : Nft)
    (bucketId : String) : ExecResult :=
  execute_add_to_bucket s (Asset.nft nft.contract_address nft.token_id) userWallet bucketId

/-- The cw20 filter of `contract.rs` (embedded from source): validate
the wrapper's original sender, build the cw20 balance from the calling
token contract (`info.sender`) and the wrapper amount, and dispatch the
inner message attributed to the validated original sender. -/
def execute_receive (s : State) (infoSender : Addr) (wrapper : Cw20ReceiveMsg) : ExecResult :=
  match addrValidate wrapper.sender with
  | none => .error .InvalidAddr
  | some user_wallet =>
      let balance := Asset.cw20 infoSender wrapper.amount
      match wrapper.msg with
      | .createListingCw20 create_msg =>
          execute_create_listing_cw20 s user_wallet infoSender balance create_msg
      | .addFundsToSaleCw20 listing_id =>
          execute_add_funds_to_sale s balance user_wallet listing_id
      | .createBucketCw20 bucket_id =>
          execute_create_bucket s balance user_wallet bucket_id
      | .addToBucketCw20 bucket_id =>
          execute_add_to_bucket s balance user_wallet bucket_id

/-- The cw721 filter of `contract.rs` (embedded from source): validate
the wrapper's original sender, build the NFT reference from the calling
NFT contract (`info.sender`) and the wrapper token id, and dispatch the
inner message attributed to the validated original sender. -/
def execute_receive_nft (s : State) (infoSender : Addr) (wrapper : Cw721ReceiveMsg) : ExecResult :=
  match addrValidate wrapper.sender with
  | none => .error .InvalidAddr
  | some user_wallet =>
      let incoming_nft : Nft :=
        { contract_address := infoSender, token_id := wrapper.token_id }
      match wrapper.msg with
      | .createListingCw721 create_msg =>
          execute_create_listing_cw721 s user_wallet incoming_nft create_msg
      | .addToListingCw721 listing_id =>
          execute_add_to_sale_cw721 s user_wallet incoming_nft listing_id
      | .createBucketCw721 bucket_id =>
          execute_create_bucket_cw721 s user_wallet incoming_nft bucket_id
      | .addToBucketCw721 bucket_id =>
          execute_add_to_bucket_cw721 s user_wallet incoming_nft bucket_id

/-- The instantiate message (`msg.rs` is missing; the only field used by
`instantiate` in `contract.rs` is the optional admin string). -/
structure InstantiateMsg where
  admin : Option String
deriving DecidableEq, Repr

/-- `instantiate` from `contract.rs` (embedded from source): validate
the supplied admin string, defaulting to the transaction sender when the
message omits one, and store the validated address in the config
singleton; a validation failure aborts with an error and nothing is
stored. -/
def instantiate (sender : Addr) (msg : InstantiateMsg) : Except ContractError Config :=
  match addrValidate (msg.admin.getD sender) with
  | none => .error .InvalidAddr
  | some validated_admin => .ok { admin := validated_admin }

/-- The query messages dispatched in `contract.rs`. -/
inductive QueryMsg where
  | getAdmin
  | getConfig
  | getListingInfo (listing_id : Nat)
  | getListingsByOwner (owner : Addr)
  | getAllListings
  | getBuckets (bucket_owner : Addr)
  | getListingsForMarket (page_num : Nat)
  | getWhitelistedListings (address : Addr)
deriving DecidableEq, Repr

/-- The possible query answers (serialization to binary is an
out-of-scope adapter concern). -/
inductive QueryAnswer where
  | adminA (a : Addr)
  | configA (c : Config)
  | listingA (l : Option Listing)
  | listingsA (ls : List (Nat × Listing))
  | bucketsA (bs : List ((Addr × String) × Bucket))
deriving DecidableEq, Repr

/-- Modelled from the spec (§6 read-only queries, `query.rs` is
missing): the admin identity. -/
def get_admin (s : State) : Addr := s.config.admin

/-- Modelled from the spec (§6): the configuration. -/
def get_config (s : State) : Config := s.config

/-- Modelled from the spec (§6): a single listing by identifier. -/
def get_listing_info (s : State) (id : Nat) : Option Listing := lookupA s.listings id

/-- Modelled from the spec (§6): the listings of one owner. -/
def get_listings_by_owner (s : State) (owner : Addr) : List (Nat × Listing) :=
  s.listings.filter (fun p => p.2.seller == owner)

/-- Modelled from the spec (§6): all listings (pagination is an
out-of-scope adapter concern). -/
def get_all_listings (s : State) : List (Nat × Listing) := s.listings

/-- Modelled from the spec (§6): the buckets of one owner. -/
def get_buckets (s : State) (owner : Addr) : List ((Addr × String) × Bucket) :=
  s.buckets.filter (fun p => p.1.1 == owner)

/-- Modelled from the spec (§6): listings available for purchase,
excluding Closed and expired-Finalized ones (pagination is an
out-of-scope adapter concern). -/
def get_listings_for_market (s : State) (now : Nat) (_pageNum : Nat) : List (Nat × Listing) :=
  s.listings.filter (fun p => purchasableAt p.2 now)

/-- Modelled from the spec (§6): listings whitelisted to one address. -/
def get_whitelisted_listings (s : State) (address : Addr) : List (Nat × Listing) :=
  s.listings.filter (fun p => p.2.whitelistedBuyer == some address)

/-- The query dispatcher of `contract.rs` (embedded from source); `now`
is the `env` block time used by the market query. -/
def query (s : State) (now : Nat) : QueryMsg → QueryAnswer
  | .getAdmin => .adminA (get_admin s)
  | .getConfig => .configA (get_config s)
  | .getListingInfo listing_id => .listingA (get_listing_info s listing_id)
  | .getListingsByOwner owner => .listingsA (get_listings_by_owner s owner)
  | .getAllListings => .listingsA (get_all_listings s)
  | .getBuckets bucket_owner => .bucketsA (get_buckets s bucket_owner)
  | .getListingsForMarket page_num => .listingsA (get_listings_for_market s now page_num)
  | .getWhitelistedListings address => .listingsA (get_whitelisted_listings s address)

/-- A contract call: either an execute operation or a read-only query. -/
inductive ContractMsg where
  | execMsg (op : Op)
  | queryMsg (q : QueryMsg)
deriving DecidableEq, Repr

/-- The combined entry point: an execute message steps the state (an
error leaves it unchanged); a query message runs against a read-only
view of the state (`Deps` in the source) and returns an answer. -/
def handle (s : State) (now : Nat) : ContractMsg → State × Option QueryAnswer
  | .execMsg op =>
      match step s now op with
      | .ok (s2, _) => (s2, none)
      | .error _ => (s, none)
  | .queryMsg q => (s, some (query s now q))

/-- Ledger well-formedness: each listing identifier and each bucket key
occurs at most once.  It holds of the initial state and every
update keeps it. -/
def WF (s : State) : Prop :=
  (s.listings.map Prod.fst).Nodup ∧ (s.buckets.map Prod.fst).Nodup

instance (s : State) : Decidable (WF s) := by
  unfold WF
  infer_instance

/-! ### Association-list lemmas -/

theorem lookupA_eq_none_of_not_mem {α β : Type} [DecidableEq α] (l : List (α × β)) (k0 : α)
    (h : k0 ∉ l.map Prod.fst) : lookupA l k0 = none := by
  induction l with
  | nil => rfl
  | cons p rest ih =>
      simp only [List.map_cons, List.mem_cons] at h
      push_neg at h
      simp only [lookupA]
      rw [if_neg (fun hpk => h.1 hpk.symm)]
      exact ih h.2

theorem keyedVal_remove {α β : Type} [DecidableEq α] (f : β → AssetKey → Nat)
    (l : List (α × β)) (k0 : α) (v : β) (h : lookupA l k0 = some v) (k : AssetKey) :
    keyedVal f l k = f v k + keyedVal f (removeFirstA l k0) k := by
  induction l with
  | nil => simp [lookupA] at h
  | cons p rest ih =>
      by_cases hp : p.1 = k0
      · simp only [lookupA, if_pos hp, Option.some.injEq] at h
        subst h
        simp [keyedVal, removeFirstA, hp]
      · simp only [lookupA, if_neg hp] at h
        simp only [keyedVal, removeFirstA, if_neg hp]
        rw [ih h]
        omega

theorem keyedVal_set {α β : Type} [DecidableEq α] (f : β → AssetKey → Nat)
    (l : List (α × β)) (k0 : α) (v w : β) (h : lookupA l k0 = some v) (k : AssetKey) :
    keyedVal f (setFirstA l k0 w) k = f w k + keyedVal f (removeFirstA l k0) k := by
  induction l with
  | nil => simp [lookupA] at h
  | cons p rest ih =>
      by_cases hp : p.1 = k0
      · simp [keyedVal, setFirstA, removeFirstA, hp]
      · simp only [lookupA, if_neg hp] at h
        simp only [keyedVal, setFirstA, removeFirstA, if_neg hp]
        rw [ih h]
        omega

theorem lookupA_set_self {α β : Type} [DecidableEq α] (l : List (α × β)) (k0 : α) (v w : β)
    (h : lookupA l k0 = some v) : lookupA (setFirstA l k0 w) k0 = some w := by
  induction l with
  | nil => simp [lookupA] at h
  | cons p rest ih =>
      by_cases hp : p.1 = k0
      · simp [lookupA, setFirstA, hp]
      · simp only [lookupA, if_neg hp] at h
        simp only [setFirstA, if_neg hp, lookupA, if_neg hp]
        exact ih h

theorem lookupA_set_ne {α β : Type} [DecidableEq α] (l : List (α × β)) (k0 k1 : α) (w : β)
    (hne : k1 ≠ k0) : lookupA (setFirstA l k0 w) k1 = lookupA l k1 := by
  induction l with
  | nil => rfl
  | cons p rest ih =>
      by_cases hp : p.1 = k0
      · simp only [setFirstA, if_pos hp, lookupA]
        rw [if_neg (fun hk => hne hk.symm), if_neg (fun hk => (hne (hp ▸ hk).symm))]
      · simp only [setFirstA, if_neg hp, lookupA]
        by_cases hq : p.1 = k1
        · simp [hq]
        · rw [if_neg hq, if_neg hq]
          exact ih

theorem lookupA_remove_self {α β : Type} [DecidableEq α] (l : List (α × β)) (k0 : α)
    (hnd : (l.map Prod.fst).Nodup) : lookupA (removeFirstA l k0) k0 = none := by
  induction l with
  | nil => rfl
  | cons p rest ih =>
      simp only [List.map_cons, List.nodup_cons] at hnd
      by_cases hp : p.1 = k0
      · simp only [removeFirstA, if_pos hp]
        exact lookupA_eq_none_of_not_mem rest k0 (hp ▸ hnd.1)
      · simp only [removeFirstA, if_neg hp, lookupA, if_neg hp]
        exact ih hnd.2

theorem sumAssets_append (l1 l2 : List Asset) (k : AssetKey) :
    sumAssets (l1 ++ l2) k = sumAssets l1 k + sumAssets l2 k := by
  induction l1 with
  | nil => simp [sumAssets]
  | cons a rest ih =>
      simp only [List.cons_append, sumAssets, List.append_eq]
      rw [ih]
      omega

theorem relVal_append (l1 l2 : List (Addr × Asset)) (k : AssetKey) :
    relVal (l1 ++ l2) k = relVal l1 k + relVal l2 k := by
  induction l1 with
  | nil => simp [relVal]
  | cons a rest ih =>
      simp only [List.cons_append, relVal, List.append_eq]
      rw [ih]
      omega

/-! ### Asset lemmas -/

theorem Asset.add_qty {a b c : Asset} (h : a.add b = .ok c) (k : AssetKey) :
    c.qty k = a.qty k + b.qty k := by
  cases a with
  | native d x =>
      cases b with
      | native d2 y =>
          simp only [Asset.add] at h
          split at h
          · rename_i hd
            subst hd
            cases h' : c <;> simp [h'] at h
            · rename_i d3 z
              obtain ⟨hd3, hz⟩ := h
              subst hd3
              subst hz
              cases k <;> simp [Asset.qty, h']
              rename_i dk
              by_cases hdk : d = dk <;> simp [hdk]
          · exact absurd h (by simp)
      | cw20 i y => exact absurd h (by simp [Asset.add])
      | nft i t => exact absurd h (by simp [Asset.add])
  | cw20 i x =>
      cases b with
      | native d y => exact absurd h (by simp [Asset.add])
      | cw20 i2 y =>
          simp only [Asset.add] at h
          split at h
          · rename_i hi
            subst hi
            cases h' : c <;> simp [h'] at h
            · rename_i i3 z
              obtain ⟨hi3, hz⟩ := h
              subst hi3
              subst hz
              cases k <;> simp [Asset.qty, h']
              rename_i ik
              by_cases hik : i = ik <;> simp [hik]
          · exact absurd h (by simp)
      | nft i2 t => exact absurd h (by simp [Asset.add])
  | nft i t =>
      cases b <;> exact absurd h (by simp [Asset.add])

/-! ### Per-operation value conservation -/

theorem conserve_create_listing (s : State) (seller : Addr) (deposit : Asset)
    (cm : CreateListingMsg) (s2 : State) (eff : List (Addr × Asset))
    (h : execute_create_listing s seller deposit cm = .ok (s2, eff)) (k : AssetKey) :
    heldVal s2 k + relVal eff k = heldVal s k + deposit.qty k := by
  unfold execute_create_listing at h
  split at h
  · exact absurd h (by simp)
  · split at h
    · exact absurd h (by simp)
    · simp only [Except.ok.injEq, Prod.mk.injEq] at h
      obtain ⟨hs2, heff⟩ := h
      subst hs2
      subst heff
      simp only [heldVal, keyedVal, relVal, newListing]
      omega

theorem conserve_add_funds_to_sale (s : State) (balance : Asset) (depositor : Addr)
    (listingId : Nat) (s2 : State) (eff : List (Addr × Asset))
    (h : execute_add_funds_to_sale s balance depositor listingId = .ok (s2, eff))
    (k : AssetKey) :
    heldVal s2 k + relVal eff k = heldVal s k + balance.qty k := by
  unfold execute_add_funds_to_sale at h
  split at h
  · exact absurd h (by simp)
  · rename_i l hl
    split at h
    · exact absurd h (by simp)
    · split at h
      · exact absurd h (by simp)
      · split at h
        · exact absurd h (by simp)
        · split at h
          · exact absurd h (by simp)
          · rename_i newAsset hadd
            simp only [Except.ok.injEq, Prod.mk.injEq] at h
            obtain ⟨hs2, heff⟩ := h
            subst hs2
            subst heff
            simp only [heldVal, relVal]
            have hset := keyedVal_set (fun l => l.saleAsset.qty)
              s.listings listingId l ({ l with saleAsset := newAsset }) hl k
            have hrem := keyedVal_remove (fun l => l.saleAsset.qty)
              s.listings listingId l hl k
            have hq := Asset.add_qty hadd k
            simp only at hset hrem
            omega

theorem conserve_change_ask (s : State) (caller : Addr) (listingId : Nat) (newAsk : Asset)
    (s2 : State) (eff : List (Addr × Asset))
    (h : execute_change_ask s caller listingId newAsk = .ok (s2, eff)) (k : AssetKey) :
    heldVal s2 k + relVal eff k = heldVal s k := by
  unfold execute_change_ask at h
  split at h
  · exact absurd h (by simp)
  · rename_i l hl
    split at h
    · exact absurd h (by simp)
    · split at h
      · exact absurd h (by simp)
      · simp only [Except.ok.injEq, Prod.mk.injEq] at h
        obtain ⟨hs2, heff⟩ := h
        subst hs2
        subst heff
        simp only [heldVal, relVal]
        have hset := keyedVal_set (fun l => l.saleAsset.qty)
          s.listings listingId l ({ l with ask := newAsk }) hl k
        have hrem := keyedVal_remove (fun l => l.saleAsset.qty)
          s.listings listingId l hl k
        simp only at hset hrem
        omega

theorem conserve_modify_whitelisted_buyer (s : State) (caller : Addr) (listingId : Nat)
    (newAddr : Option Addr) (s2 : State) (eff : List (Addr × Asset))
    (h : execute_modify_whitelisted_buyer s caller listingId newAddr = .ok (s2, eff))
    (k : AssetKey) :
    heldVal s2 k + relVal eff k = heldVal s k := by
  unfold execute_modify_whitelisted_buyer at h
  split at h
  · exact absurd h (by simp)
  · rename_i l hl
    split at h
    · exact absurd h (by simp)
    · simp only [Except.ok.injEq, Prod.mk.injEq] at h
      obtain ⟨hs2, heff⟩ := h
      subst hs2
      subst heff
      simp only [heldVal, relVal]
      have hset := keyedVal_set (fun l => l.saleAsset.qty)
        s.listings listingId l ({ l with whitelistedBuyer := newAddr }) hl k
      have hrem := keyedVal_remove (fun l => l.saleAsset.qty)
        s.listings listingId l hl k
      simp only at hset hrem
      omega

theorem conserve_remove_listing (s : State) (caller : Addr) (listingId : Nat)
    (s2 : State) (eff : List (Addr × Asset))
    (h : execute_remove_listing s caller listingId = .ok (s2, eff)) (k : AssetKey) :
    heldVal s2 k + relVal eff k = heldVal s k := by
  unfold execute_remove_listing at h
  split at h
  · exact absurd h (by simp)
  · rename_i l hl
    split at h
    · exact absurd h (by simp)
    · split at h
      · exact absurd h (by simp)
      · simp only [Except.ok.injEq, Prod.mk.injEq] at h
        obtain ⟨hs2, heff⟩ := h
        subst hs2
        subst heff
        simp only [heldVal, relVal]
        have hrem := keyedVal_remove (fun l => l.saleAsset.qty)
          s.listings listingId l hl k
        simp only at hrem
        omega

theorem conserve_finalize (s : State) (now : Nat) (caller : Addr) (listingId : Nat)
    (seconds : Nat) (s2 : State) (eff : List (Addr × Asset))
    (h : execute_finalize s now caller listingId seconds = .ok (s2, eff)) (k : AssetKey) :
    heldVal s2 k + relVal eff k = heldVal s k := by
  unfold execute_finalize at h
  split at h
  · exact absurd h (by simp)
  · rename_i l hl
    split at h
    · exact absurd h (by simp)
    · split at h
      · exact absurd h (by simp)
      · simp only [Except.ok.injEq, Prod.mk.injEq] at h
        obtain ⟨hs2, heff⟩ := h
        subst hs2
        subst heff
        simp only [heldVal, relVal]
        have hset := keyedVal_set (fun l => l.saleAsset.qty)
          s.listings listingId l ({ l with status := .finalized (now + seconds) }) hl k
        have hrem := keyedVal_remove (fun l => l.saleAsset.qty)
          s.listings listingId l hl k
        simp only at hset hrem
        omega

theorem conserve_refund (s : State) (now : Nat) (caller : Addr) (listingId : Nat)
    (s2 : State) (eff : List (Addr × Asset))
    (h : execute_refund s now caller listingId = .ok (s2, eff)) (k : AssetKey) :
    heldVal s2 k + relVal eff k = heldVal s k := by
  unfold execute_refund at h
  split at h
  · exact absurd h (by simp)
  · rename_i l hl
    split at h
    · exact absurd h (by simp)
    · split at h
      · split at h
        · exact absurd h (by simp)
        · simp only [Except.ok.injEq, Prod.mk.injEq] at h
          obtain ⟨hs2, heff⟩ := h
          subst hs2
          subst heff
          simp only [heldVal, relVal]
          have hrem := keyedVal_remove (fun l => l.saleAsset.qty)
            s.listings listingId l hl k
          simp only at hrem
          omega
      · exact absurd h (by simp)

theorem conserve_create_bucket (s : State) (deposit : Asset) (owner : Addr)
    (bucketId : String) (s2 : State) (eff : List (Addr × Asset))
    (h : execute_create_bucket s deposit owner bucketId = .ok (s2, eff)) (k : AssetKey) :
    heldVal s2 k + relVal eff k = heldVal s k + deposit.qty k := by
  unfold execute_create_bucket at h
  split at h
  · exact absurd h (by simp)
  · split at h
    · exact absurd h (by simp)
    · simp only [Except.ok.injEq, Prod.mk.injEq] at h
      obtain ⟨hs2, heff⟩ := h
      subst hs2
      subst heff
      simp only [heldVal, keyedVal, relVal]
      omega

theorem conserve_add_to_bucket (s : State) (balance : Asset) (owner : Addr)
    (bucketId : String) (s2 : State) (eff : List (Addr × Asset))
    (h : execute_add_to_bucket s balance owner bucketId = .ok (s2, eff)) (k : AssetKey) :
    heldVal s2 k + relVal eff k = heldVal s k + balance.qty k := by
  unfold execute_add_to_bucket at h
  split at h
  · exact absurd h (by simp)
  · rename_i b hb
    split at h
    · exact absurd h (by simp)
    · split at h
      · exact absurd h (by simp)
      · split at h
        · exact absurd h (by simp)
        · rename_i newFunds hadd
          simp only [Except.ok.injEq, Prod.mk.injEq] at h
          obtain ⟨hs2, heff⟩ := h
          subst hs2
          subst heff
          simp only [heldVal, relVal]
          have hset := keyedVal_set (fun b => b.funds.qty)
            s.buckets (owner, bucketId) b ({ b with funds := newFunds }) hb k
          have hrem := keyedVal_remove (fun b => b.funds.qty)
            s.buckets (owner, bucketId) b hb k
          have hq := Asset.add_qty hadd k
          simp only at hset hrem
          omega

theorem conserve_withdraw_bucket (s : State) (owner : Addr) (bucketId : String)
    (s2 : State) (eff : List (Addr × Asset))
    (h : execute_withdraw_bucket s owner bucketId = .ok (s2, eff)) (k : AssetKey) :
    heldVal s2 k + relVal eff k = heldVal s k := by
  unfold execute_withdraw_bucket at h
  split at h
  · exact absurd h (by simp)
  · rename_i b hb
    split at h
    · exact absurd h (by simp)
    · simp only [Except.ok.injEq, Prod.mk.injEq] at h
      obtain ⟨hs2, heff⟩ := h
      subst hs2
      subst heff
      simp only [heldVal, relVal]
      have hrem := keyedVal_remove (fun b => b.funds.qty)
        s.buckets (owner, bucketId) b hb k
      simp only at hrem
      omega

theorem conserve_buy_listing (s : State) (now : Nat) (buyer : Addr) (listingId : Nat)
    (bucketId : String) (s2 : State) (eff : List (Addr × Asset))
    (h : execute_buy_listing s now buyer listingId bucketId = .ok (s2, eff)) (k : AssetKey) :
    heldVal s2 k + relVal eff k = heldVal s k := by
  unfold execute_buy_listing at h
  split at h
  · exact absurd h (by simp)
  · rename_i l hl
    split at h
    · exact absurd h (by simp)
    · split at h
      · exact absurd h (by simp)
      · split at h
        · exact absurd h (by simp)
        · rename_i b hb
          split at h
          · exact absurd h (by simp)
          · split at h
            · exact absurd h (by simp)
            · simp only [Except.ok.injEq, Prod.mk.injEq] at h
              obtain ⟨hs2, heff⟩ := h
              subst hs2
              subst heff
              simp only [heldVal, relVal]
              have hremL := keyedVal_remove (fun l => l.saleAsset.qty)
                s.listings listingId l hl k
              have hsetB := keyedVal_set (fun b => b.funds.qty)
                s.buckets (buyer, bucketId) b
                ({ funds := l.saleAsset, status := .consumed }) hb k
              have hremB := keyedVal_remove (fun b => b.funds.qty)
                s.buckets (buyer, bucketId) b hb k
              simp only at hremL hsetB hremB
              omega

theorem conserve_withdraw_purchased (s : State) (owner : Addr) (bucketId : String)
    (s2 : State) (eff : List (Addr × Asset))
    (h : execute_withdraw_purchased s owner bucketId = .ok (s2, eff)) (k : AssetKey) :
    heldVal s2 k + relVal eff k = heldVal s k := by
  unfold execute_withdraw_purchased at h
  split at h
  · exact absurd h (by simp)
  · rename_i b hb
    split at h
    · exact absurd h (by simp)
    · simp only [Except.ok.injEq, Prod.mk.injEq] at h
      obtain ⟨hs2, heff⟩ := h
      subst hs2
      subst heff
      simp only [heldVal, relVal]
      have hrem := keyedVal_remove (fun b => b.funds.qty)
        s.buckets (owner, bucketId) b hb k
      simp only at hrem
      omega

/-- Single-operation value conservation: a successful step preserves the
total value of every kind, counting the deposits it takes in and the
transfers it releases. -/
theorem step_conserves (s : State) (now : Nat) (op : Op) (s2 : State)
    (eff : List (Addr × Asset)) (h : step s now op = .ok (s2, eff)) (k : AssetKey) :
    heldVal s2 k + relVal eff k = heldVal s k + sumAssets (depositsOf op) k := by
  cases op with
  | createListing seller deposit cm =>
      have := conserve_create_listing s seller deposit cm s2 eff h k
      simp only [depositsOf, sumAssets]
      omega
  | addFundsToSale depositor balance listingId =>
      have := conserve_add_funds_to_sale s balance depositor listingId s2 eff h k
      simp only [depositsOf, sumAssets]
      omega
  | changeAsk caller listingId newAsk =>
      have := conserve_change_ask s caller listingId newAsk s2 eff h k
      simp only [depositsOf, sumAssets]
      omega
  | modifyWhitelistedBuyer caller listingId newAddr =>
      have := conserve_modify_whitelisted_buyer s caller listingId newAddr s2 eff h k
      simp only [depositsOf, sumAssets]
      omega
  | removeListing caller listingId =>
      have := conserve_remove_listing s caller listingId s2 eff h k
      simp only [depositsOf, sumAssets]
      omega
  | finalize caller listingId seconds =>
      have := conserve_finalize s now caller listingId seconds s2 eff h k
      simp only [depositsOf, sumAssets]
      omega
  | refundExpired caller listingId =>
      have := conserve_refund s now caller listingId s2 eff h k
      simp only [depositsOf, sumAssets]
      omega
  | createBucket owner deposit bucketId =>
      have := conserve_create_bucket s deposit owner bucketId s2 eff h k
      simp only [depositsOf, sumAssets]
      omega
  | addToBucket owner balance bucketId =>
      have := conserve_add_to_bucket s balance owner bucketId s2 eff h k
      simp only [depositsOf, sumAssets]
      omega
  | removeBucket owner bucketId =>
      have := conserve_withdraw_bucket s owner bucketId s2 eff h k
      simp only [depositsOf, sumAssets]
      omega
  | buyListing buyer listingId bucketId =>
      have := conserve_buy_listing s now buyer listingId bucketId s2 eff h k
      simp only [depositsOf, sumAssets]
      omega
  | withdrawPurchased caller bucketId =>
      have := conserve_withdraw_purchased s caller bucketId s2 eff h k
      simp only [depositsOf, sumAssets]
      omega

/-- Run-level conservation: if held + released = deposited holds of the
accumulators, it holds after running any further operations. -/
theorem runAcc_conserves (ops : List (Nat × Op)) (s : State) (dep : List Asset)
    (rel : List (Addr × Asset)) (k : AssetKey)
    (hinv : heldVal s k + relVal rel k = sumAssets dep k) :
    heldVal (runAcc s dep rel ops).1 k + relVal (runAcc s dep rel ops).2.2 k
      = sumAssets (runAcc s dep rel ops).2.1 k := by
  induction ops generalizing s dep rel with
  | nil => simpa [runAcc] using hinv
  | cons p rest ih =>
      obtain ⟨now, op⟩ := p
      cases hstep : step s now op with
      | error e =>
          simp only [runAcc, hstep]
          exact ih s dep rel hinv
      | ok pr =>
          obtain ⟨s2, eff⟩ := pr
          simp only [runAcc, hstep]
          apply ih
          have hc := step_conserves s now op s2 eff hstep k
          rw [relVal_append, sumAssets_append]
          omega

/-- C1: for every finite sequence of operations from the initial state,
the value held in listing and bucket records plus the value released to
external addresses equals the value deposited, for every asset kind;
and no single successful operation creates or destroys tracked value. -/
theorem C1_value_conservation :
    (∀ (admin : Addr) (ops : List (Nat × Op)) (k : AssetKey),
        heldVal (runAcc (initState admin) [] [] ops).1 k
            + relVal (runAcc (initState admin) [] [] ops).2.2 k
          = sumAssets (runAcc (initState admin) [] [] ops).2.1 k)
    ∧ (∀ (s : State) (now : Nat) (op : Op) (s2 : State) (eff : List (Addr × Asset)),
        step s now op = .ok (s2, eff) →
        ∀ k, heldVal s2 k + relVal eff k = heldVal s k + sumAssets (depositsOf op) k) := by
  constructor
  · intro admin ops k
    apply runAcc_conserves
    simp [initState, heldVal, keyedVal, relVal, sumAssets]
  · intro s now op s2 eff h k
    exact step_conserves s now op s2 eff h k

/-- Witness for C1 at a concrete successful operation: creating a bucket
with 5 atom from the initial state deposits exactly the 5 atom now held. -/
theorem C1_value_conservation_witness :
    heldVal { listings := [],
              buckets := [(("buyer", "b1"),
                { funds := Asset.native "atom" 5, status := .open_ })],
              config := { admin := "adm" } } (.native "atom")
        + relVal [] (.native "atom")
      = heldVal (initState "adm") (.native "atom")
          + sumAssets (depositsOf (.createBucket "buyer" (Asset.native "atom" 5) "b1"))
              (.native "atom") :=
  C1_value_conservation.2 (initState "adm") 0
    (.createBucket "buyer" (Asset.native "atom" 5) "b1")
    { listings := [],
      buckets := [(("buyer", "b1"), { funds := Asset.native "atom" 5, status := .open_ })],
      config := { admin := "adm" } }
    [] rfl (.native "atom")

/-- C2: every operation is atomic — an operation that returns an error
leaves the ledgers and the accumulated deposits and releases exactly as
they were and emits no transfer effects, while a successful operation
commits its new state together with its effects. -/
theorem C2_atomicity (s : State) (now : Nat) (op : Op) (dep : List Asset)
    (rel : List (Addr × Asset)) :
    (∀ e, step s now op = .error e →
        runAcc s dep rel [(now, op)] = (s, dep, rel)
          ∧ handle s now (.execMsg op) = (s, none))
    ∧ (∀ s2 eff, step s now op = .ok (s2, eff) →
        runAcc s dep rel [(now, op)] = (s2, dep ++ depositsOf op, rel ++ eff)
          ∧ handle s now (.execMsg op) = (s2, none)) := by
  constructor
  · intro e he
    constructor
    · simp [runAcc, he]
    · simp [handle, he]
  · intro s2 eff he
    constructor
    · simp [runAcc, he]
    · simp [handle, he]

/-- Witness for C2: buying a non-existent listing from the initial state
fails and leaves everything unchanged. -/
theorem C2_atomicity_witness :
    runAcc (initState "adm") [] [] [(0, .buyListing "buyer" 1 "b1")]
        = (initState "adm", [], [])
      ∧ handle (initState "adm") 0 (.execMsg (.buyListing "buyer" 1 "b1"))
        = (initState "adm", none) :=
  (C2_atomicity (initState "adm") 0 (.buyListing "buyer" 1 "b1") [] []).1
    .ListingNotFound rfl

/-- C3: buy_listing evaluates its preconditions in a fixed order, first
failure wins: listing existence, purchasability of status, whitelist
match, bucket existence then openness, and finally sufficiency of the
bucket balance against the ask. -/
theorem C3_buy_listing_check_order (s : State) (now : Nat) (buyer : Addr)
    (listingId : Nat) (bucketId : String) :
    (lookupA s.listings listingId = none →
        step s now (.buyListing buyer listingId bucketId) = .error .ListingNotFound)
    ∧ (∀ l, lookupA s.listings listingId = some l →
        (purchasableAt l now = false →
            step s now (.buyListing buyer listingId bucketId) = .error .NotPurchasable)
        ∧ (purchasableAt l now = true → whitelistOk l buyer = false →
            step s now (.buyListing buyer listingId bucketId) = .error .NotWhitelisted)
        ∧ (purchasableAt l now = true → whitelistOk l buyer = true →
            lookupA s.buckets (buyer, bucketId) = none →
            step s now (.buyListing buyer listingId bucketId) = .error .BucketNotFound)
        ∧ (∀ b, purchasableAt l now = true → whitelistOk l buyer = true →
            lookupA s.buckets (buyer, bucketId) = some b → b.status ≠ .open_ →
            step s now (.buyListing buyer listingId bucketId) = .error .Unauthorized)
        ∧ (∀ b, purchasableAt l now = true → whitelistOk l buyer = true →
            lookupA s.buckets (buyer, bucketId) = some b → b.status = .open_ →
            b.funds.meetsOrExceeds l.ask = false →
            step s now (.buyListing buyer listingId bucketId) = .error .InsufficientFunds)) := by
  refine ⟨?_, ?_⟩
  · intro hl
    simp [step, execute_buy_listing, hl]
  · intro l hl
    refine ⟨?_, ?_, ?_, ?_, ?_⟩
    · intro hp
      simp [step, execute_buy_listing, hl, hp]
    · intro hp hw
      simp [step, execute_buy_listing, hl, hp, hw]
    · intro hp hw hb
      simp [step, execute_buy_listing, hl, hp, hw, hb]
    · intro b hp hw hb hst
      simp [step, execute_buy_listing, hl, hp, hw, hb, hst]
    · intro b hp hw hb hst hm
      simp [step, execute_buy_listing, hl, hp, hw, hb, hst, hm]

/-- Witness for C3: a Closed listing that also has a whitelist mismatch
and no matching bucket still fails with the earlier error,
`NotPurchasable`. -/
theorem C3_buy_listing_check_order_witness :
    step { listings := [(1, { seller := "sel", saleAsset := Asset.native "atom" 10,
                              ask := Asset.native "usdc" 5,
                              whitelistedBuyer := some "w", status := .closed })],
           buckets := [], config := { admin := "adm" } }
        0 (.buyListing "x" 1 "b1") = .error .NotPurchasable :=
  ((C3_buy_listing_check_order
      { listings := [(1, { seller := "sel", saleAsset := Asset.native "atom" 10,
                           ask := Asset.native "usdc" 5,
                           whitelistedBuyer := some "w", status := .closed })],
        buckets := [], config := { admin := "adm" } }
      0 "x" 1 "b1").2
    { seller := "sel", saleAsset := Asset.native "atom" 10,
      ask := Asset.native "usdc" 5,
      whitelistedBuyer := some "w", status := .closed } rfl).1 rfl

/-- C4: the finalization deadline is exclusive for purchase and
inclusive for refund — a Finalized listing with deadline D cannot be
bought once D ≤ now, its seller cannot refund it while now < D, and at
now = D the refund succeeds while the purchase fails. -/
theorem C4_expiry_gate (s : State) (lid : Nat) (l : Listing) (D : Nat)
    (hl : lookupA s.listings lid = some l) (hst : l.status = .finalized D) :
    (∀ now buyer bid, D ≤ now →
        step s now (.buyListing buyer lid bid) = .error .NotPurchasable)
    ∧ (∀ now, now < D →
        step s now (.refundExpired l.seller lid) = .error .NotExpired)
    ∧ step s D (.refundExpired l.seller lid)
        = .ok ({ s with listings := removeFirstA s.listings lid },
               [(l.seller, l.saleAsset)])
    ∧ (∀ buyer bid, step s D (.buyListing buyer lid bid) = .error .NotPurchasable) := by
  refine ⟨?_, ?_, ?_, ?_⟩
  · intro now buyer bid hnow
    have hp : purchasableAt l now = false := by
      simp only [purchasableAt, hst]
      simpa using hnow
    simp [step, execute_buy_listing, hl, hp]
  · intro now hnow
    simp [step, execute_refund, hl, hst, hnow]
  · simp [step, execute_refund, hl, hst]
  · intro buyer bid
    have hp : purchasableAt l D = false := by
      simp [purchasableAt, hst]
    simp [step, execute_buy_listing, hl, hp]

/-- Witness for C4: a listing finalized with deadline 100 cannot be
bought at time 150. -/
theorem C4_expiry_gate_witness :
    step { listings := [(1, { seller := "sel", saleAsset := Asset.native "atom" 10,
                              ask := Asset.native "usdc" 5, whitelistedBuyer := none,
                              status := .finalized 100 })],
           buckets := [], config := { admin := "adm" } }
        150 (.buyListing "x" 1 "b1") = .error .NotPurchasable :=
  (C4_expiry_gate
      { listings := [(1, { seller := "sel", saleAsset := Asset.native "atom" 10,
                           ask := Asset.native "usdc" 5, whitelistedBuyer := none,
                           status := .finalized 100 })],
        buckets := [], config := { admin := "adm" } }
      1 { seller := "sel", saleAsset := Asset.native "atom" 10,
          ask := Asset.native "usdc" 5, whitelistedBuyer := none,
          status := .finalized 100 }
      100 rfl rfl).1 150 "x" "b1" (by decide)

/-- On a successful purchase the new listing ledger is the old one with
the bought listing's record removed. -/
theorem buy_ok_listings (s : State) (now : Nat) (buyer : Addr) (lid : Nat) (bid : String)
    (s2 : State) (eff : List (Addr × Asset))
    (h : execute_buy_listing s now buyer lid bid = .ok (s2, eff)) :
    s2.listings = removeFirstA s.listings lid := by
  unfold execute_buy_listing at h
  split at h
  · exact absurd h (by simp)
  · split at h
    · exact absurd h (by simp)
    · split at h
      · exact absurd h (by simp)
      · split at h
        · exact absurd h (by simp)
        · split at h
          · exact absurd h (by simp)
          · split at h
            · exact absurd h (by simp)
            · simp only [Except.ok.injEq, Prod.mk.injEq] at h
              obtain ⟨hs2, _⟩ := h
              subst hs2
              rfl

/-- C5: a listing is consumed by buy_listing at most once — after a
successful purchase its record is gone and every purchase attempt on the
same identifier in the resulting state fails `ListingNotFound` with no
state change. -/
theorem C5_no_double_match (s : State) (now : Nat) (buyer : Addr) (lid : Nat) (bid : String)
    (s2 : State) (eff : List (Addr × Asset)) (hwf : WF s)
    (h : step s now (.buyListing buyer lid bid) = .ok (s2, eff)) :
    lookupA s2.listings lid = none
    ∧ (∀ now2 buyer2 bid2,
        step s2 now2 (.buyListing buyer2 lid bid2) = .error .ListingNotFound
        ∧ handle s2 now2 (.execMsg (.buyListing buyer2 lid bid2)) = (s2, none)) := by
  simp only [step] at h
  have hshape := buy_ok_listings s now buyer lid bid s2 eff h
  have hnone : lookupA s2.listings lid = none := by
    rw [hshape]
    exact lookupA_remove_self s.listings lid hwf.1
  refine ⟨hnone, ?_⟩
  intro now2 buyer2 bid2
  constructor
  · simp [step, execute_buy_listing, hnone]
  · simp [handle, step, execute_buy_listing, hnone]

/-- Witness for C5: after buying listing 1 with bucket ("buyer","b1"),
the listing record for 1 is gone. -/
theorem C5_no_double_match_witness :
    lookupA (State.listings
        { listings := [],
          buckets := [(("buyer", "b1"),
            { funds := Asset.native "atom" 100, status := .consumed })],
          config := { admin := "adm" } }) 1 = none :=
  (C5_no_double_match
      { listings := [(1, { seller := "sel", saleAsset := Asset.native "atom" 100,
                           ask := Asset.native "usdc" 50, whitelistedBuyer := none,
                           status := .open_ })],
        buckets := [(("buyer", "b1"),
          { funds := Asset.native "usdc" 60, status := .open_ })],
        config := { admin := "adm" } }
      0 "buyer" 1 "b1"
      { listings := [],
        buckets := [(("buyer", "b1"),
          { funds := Asset.native "atom" 100, status := .consumed })],
        config := { admin := "adm" } }
      [("sel", Asset.native "usdc" 60)]
      (by constructor <;> decide) rfl).1

/-- On a successful whitelist change the new listing ledger is the old
one with the record's whitelist field replaced, and the bucket ledger is
untouched. -/
theorem modify_wl_ok_listings (s : State) (caller : Addr) (lid : Nat)
    (newAddr : Option Addr) (s2 : State) (eff : List (Addr × Asset)) (l : Listing)
    (hl : lookupA s.listings lid = some l)
    (h : execute_modify_whitelisted_buyer s caller lid newAddr = .ok (s2, eff)) :
    s2.listings = setFirstA s.listings lid ({ l with whitelistedBuyer := newAddr })
    ∧ s2.buckets = s.buckets := by
  unfold execute_modify_whitelisted_buyer at h
  rw [hl] at h
  simp only [] at h
  split at h
  · exact absurd h (by simp)
  · simp only [Except.ok.injEq, Prod.mk.injEq] at h
    obtain ⟨hs2, _⟩ := h
    subst hs2
    exact ⟨rfl, rfl⟩

/-- C6: with whitelisted buyer W, a purchase by any other address fails
`NotWhitelisted`, a purchase by W with a sufficient open bucket
succeeds, and clearing the whitelist makes the whitelist check pass for
every buyer afterwards. -/
theorem C6_whitelist_enforcement (s : State) (now : Nat) (lid : Nat) (l : Listing)
    (W : Addr) (hl : lookupA s.listings lid = some l)
    (hw : l.whitelistedBuyer = some W) :
    (∀ buyer bid, purchasableAt l now = true → buyer ≠ W →
        step s now (.buyListing buyer lid bid) = .error .NotWhitelisted)
    ∧ (∀ bid b, purchasableAt l now = true → lookupA s.buckets (W, bid) = some b →
        b.status = .open_ → b.funds.meetsOrExceeds l.ask = true →
        ∃ s2 eff, step s now (.buyListing W lid bid) = .ok (s2, eff))
    ∧ (∀ s2 eff, step s now (.modifyWhitelistedBuyer l.seller lid none) = .ok (s2, eff) →
        lookupA s2.listings lid = some ({ l with whitelistedBuyer := none })
        ∧ ∀ buyer bid now2,
            step s2 now2 (.buyListing buyer lid bid) ≠ .error .NotWhitelisted) := by
  refine ⟨?_, ?_, ?_⟩
  · intro buyer bid hp hne
    have hwOk : whitelistOk l buyer = false := by
      simp only [whitelistOk, hw]
      exact beq_eq_false_iff_ne.mpr (fun hEq => hne hEq.symm)
    simp [step, execute_buy_listing, hl, hp, hwOk]
  · intro bid b hp hb hbst hm
    have hwOk : whitelistOk l W = true := by
      simp [whitelistOk, hw]
    refine ⟨?_, ?_, ?_⟩
    · exact { s with listings := removeFirstA s.listings lid, buckets := setFirstA s.buckets (W, bid) ({ funds := l.saleAsset, status := .consumed }) }
    · exact [(l.seller, b.funds)]
    · simp [step, execute_buy_listing, hl, hp, hwOk, hb, hbst, hm]
  · intro s2 eff h
    simp only [step] at h
    have hshape := modify_wl_ok_listings s l.seller lid none s2 eff l hl h
    have hl2 : lookupA s2.listings lid = some ({ l with whitelistedBuyer := none }) := by
      rw [hshape.1]
      exact lookupA_set_self s.listings lid l _ hl
    refine ⟨hl2, ?_⟩
    intro buyer bid now2
    have hwOk : whitelistOk ({ l with whitelistedBuyer := none }) buyer = true := by
      simp [whitelistOk]
    by_cases hp2 : purchasableAt ({ l with whitelistedBuyer := none }) now2
    · cases hb2 : lookupA s2.buckets (buyer, bid) with
      | none => simp [step, execute_buy_listing, hl2, hp2, hwOk, hb2]
      | some b2 =>
          by_cases hst2 : b2.status = BStatus.open_
          · by_cases hm2 : b2.funds.meetsOrExceeds l.ask
            · simp [step, execute_buy_listing, hl2, hp2, hwOk, hb2, hst2, hm2]
            · simp [step, execute_buy_listing, hl2, hp2, hwOk, hb2, hst2, hm2]
          · simp [step, execute_buy_listing, hl2, hp2, hwOk, hb2, hst2]
    · simp [step, execute_buy_listing, hl2, hp2]

/-- Witness for C6: a buyer other than the whitelisted address "w" is
rejected with `NotWhitelisted`. -/
theorem C6_whitelist_enforcement_witness :
    step { listings := [(1, { seller := "sel", saleAsset := Asset.native "atom" 10,
                              ask := Asset.native "usdc" 5,
                              whitelistedBuyer := some "w", status := .open_ })],
           buckets := [], config := { admin := "adm" } }
        0 (.buyListing "x" 1 "b1") = .error .NotWhitelisted :=
  (C6_whitelist_enforcement
      { listings := [(1, { seller := "sel", saleAsset := Asset.native "atom" 10,
                           ask := Asset.native "usdc" 5,
                           whitelistedBuyer := some "w", status := .open_ })],
        buckets := [], config := { admin := "adm" } }
      0 1 { seller := "sel", saleAsset := Asset.native "atom" 10,
            ask := Asset.native "usdc" 5,
            whitelistedBuyer := some "w", status := .open_ }
      "w" rfl rfl).1 "x" "b1" rfl (by decide)

/-- C7: withdraw_purchased succeeds exactly on a Consumed bucket,
releasing the recorded purchased asset to the owner and deleting the
record; on a bucket in any other status it fails `NotPurchased` and
changes nothing. -/
theorem C7_withdraw_purchased (s : State) (now : Nat) (owner : Addr) (bid : String)
    (b : Bucket) (hb : lookupA s.buckets (owner, bid) = some b) :
    (b.status = .consumed →
        step s now (.withdrawPurchased owner bid)
          = .ok ({ s with buckets := removeFirstA s.buckets (owner, bid) },
                 [(owner, b.funds)])
        ∧ ((s.buckets.map Prod.fst).Nodup →
            lookupA (removeFirstA s.buckets (owner, bid)) (owner, bid) = none))
    ∧ (b.status ≠ .consumed →
        step s now (.withdrawPurchased owner bid) = .error .NotPurchased
        ∧ handle s now (.execMsg (.withdrawPurchased owner bid)) = (s, none)) := by
  constructor
  · intro hc
    constructor
    · simp [step, execute_withdraw_purchased, hb, hc]
    · intro hnd
      exact lookupA_remove_self s.buckets (owner, bid) hnd
  · intro hc
    constructor
    · simp [step, execute_withdraw_purchased, hb, hc]
    · simp [handle, step, execute_withdraw_purchased, hb, hc]

/-- Witness for C7: withdrawing a Consumed bucket releases its recorded
asset to the owner and deletes the record. -/
theorem C7_withdraw_purchased_witness :
    step { listings := [],
           buckets := [(("buyer", "b1"),
             { funds := Asset.native "atom" 100, status := .consumed })],
           config := { admin := "adm" } }
        0 (.withdrawPurchased "buyer" "b1")
      = .ok ({ listings := [], buckets := [], config := { admin := "adm" } },
             [("buyer", Asset.native "atom" 100)]) :=
  ((C7_withdraw_purchased
      { listings := [],
        buckets := [(("buyer", "b1"),
          { funds := Asset.native "atom" 100, status := .consumed })],
        config := { admin := "adm" } }
      0 "buyer" "b1"
      { funds := Asset.native "atom" 100, status := .consumed } rfl).1 rfl).1

/-- C8: the receive adapters attribute each operation to the validated
original sender carried in the wrapper, never to the token contract that
delivered the message, and they build the deposited asset with issuer
identity equal to the calling token/NFT contract and the quantity/item
identifier taken from the wrapper; a wrapper whose sender fails
validation is rejected. -/
theorem C8_receive_attribution (s : State) (infoSender : Addr) :
    (∀ sender amount cm u, addrValidate sender = some u →
        execute_receive s infoSender ⟨sender, amount, .createListingCw20 cm⟩
          = step s 0 (.createListing u (.cw20 infoSender amount) cm))
    ∧ (∀ sender amount lid u, addrValidate sender = some u →
        execute_receive s infoSender ⟨sender, amount, .addFundsToSaleCw20 lid⟩
          = step s 0 (.addFundsToSale u (.cw20 infoSender amount) lid))
    ∧ (∀ sender amount bid u, addrValidate sender = some u →
        execute_receive s infoSender ⟨sender, amount, .createBucketCw20 bid⟩
          = step s 0 (.createBucket u (.cw20 infoSender amount) bid))
    ∧ (∀ sender amount bid u, addrValidate sender = some u →
        execute_receive s infoSender ⟨sender, amount, .addToBucketCw20 bid⟩
          = step s 0 (.addToBucket u (.cw20 infoSender amount) bid))
    ∧ (∀ sender tokenId cm u, addrValidate sender = some u →
        execute_receive_nft s infoSender ⟨sender, tokenId, .createListingCw721 cm⟩
          = step s 0 (.createListing u (.nft infoSender tokenId) cm))
    ∧ (∀ sender tokenId lid u, addrValidate sender = some u →
        execute_receive_nft s infoSender ⟨sender, tokenId, .addToListingCw721 lid⟩
          = step s 0 (.addFundsToSale u (.nft infoSender tokenId) lid))
    ∧ (∀ sender tokenId bid u, addrValidate sender = some u →
        execute_receive_nft s infoSender ⟨sender, tokenId, .createBucketCw721 bid⟩
          = step s 0 (.createBucket u (.nft infoSender tokenId) bid))
    ∧ (∀ sender tokenId bid u, addrValidate sender = some u →
        execute_receive_nft s infoSender ⟨sender, tokenId, .addToBucketCw721 bid⟩
          = step s 0 (.addToBucket u (.nft infoSender tokenId) bid))
    ∧ (∀ w : Cw20ReceiveMsg, addrValidate w.sender = none →
        execute_receive s infoSender w = .error .InvalidAddr)
    ∧ (∀ w : Cw721ReceiveMsg, addrValidate w.sender = none →
        execute_receive_nft s infoSender w = .error .InvalidAddr) := by
  refine ⟨?_, ?_, ?_, ?_, ?_, ?_, ?_, ?_, ?_, ?_⟩
  · intro sender amount cm u hv
    simp [execute_receive, hv, step, execute_create_listing_cw20]
  · intro sender amount lid u hv
    simp [execute_receive, hv, step]
  · intro sender amount bid u hv
    simp [execute_receive, hv, step]
  · intro sender amount bid u hv
    simp [execute_receive, hv, step]
  · intro sender tokenId cm u hv
    simp [execute_receive_nft, hv, step, execute_create_listing_cw721]
  · intro sender tokenId lid u hv
    simp [execute_receive_nft, hv, step, execute_add_to_sale_cw721]
  · intro sender tokenId bid u hv
    simp [execute_receive_nft, hv, step, execute_create_bucket_cw721]
  · intro sender tokenId bid u hv
    simp [execute_receive_nft, hv, step, execute_add_to_bucket_cw721]
  · intro w hv
    simp [execute_receive, hv]
  · intro w hv
    simp [execute_receive_nft, hv]

/-- Witness for C8: a cw20 bucket creation delivered by token contract
"tok" on behalf of original sender "alice" runs as alice's creation of a
bucket holding cw20 value issued by "tok". -/
theorem C8_receive_attribution_witness :
    execute_receive (initState "adm") "tok" ⟨"alice", 25, .createBucketCw20 "b1"⟩
      = step (initState "adm") 0 (.createBucket "alice" (.cw20 "tok" 25) "b1") :=
  (C8_receive_attribution (initState "adm") "tok").2.2.1 "alice" 25 "b1" "alice" rfl

/-- C9: instantiate stores the validated supplied admin address, or the
transaction sender when the message omits one; a validation failure
aborts with an error and stores nothing. -/
theorem C9_instantiate_admin (sender : Addr) :
    (addrValidate sender = some sender →
        instantiate sender { admin := none } = .ok { admin := sender })
    ∧ (∀ a v, addrValidate a = some v →
        instantiate sender { admin := some a } = .ok { admin := v })
    ∧ (∀ a, addrValidate a = none →
        instantiate sender { admin := some a } = .error .InvalidAddr) := by
  refine ⟨?_, ?_, ?_⟩
  · intro hv
    simp [instantiate, hv]
  · intro a v hv
    simp [instantiate, hv]
  · intro a hv
    simp [instantiate, hv]

/-- Witness for C9: with no admin supplied, the sender "alice" becomes
the stored admin. -/
theorem C9_instantiate_admin_witness :
    instantiate "alice" { admin := none } = .ok { admin := "alice" } :=
  (C9_instantiate_admin "alice").1 rfl

/-- C10: no query mutates the ledgers or the config, and re-running the
same query on the resulting state returns the same answer. -/
theorem C10_query_no_mutation (s : State) (now : Nat) (q : QueryMsg) :
    (handle s now (.queryMsg q)).1.listings = s.listings
    ∧ (handle s now (.queryMsg q)).1.buckets = s.buckets
    ∧ (handle s now (.queryMsg q)).1.config = s.config
    ∧ (handle (handle s now (.queryMsg q)).1 now (.queryMsg q)).2
        = (handle s now (.queryMsg q)).2 :=
  ⟨rfl, rfl, rfl, rfl⟩

end JunoVaults
